import Mathlib

set_option maxHeartbeats 2000000
set_option maxRecDepth 20000

/-!
Verification development for the Tool Analysis Engine of
`src/utils/stagehand-integration.ts`.

Strings are modelled as `List Char` (JS strings), and the regex-driven
scans of the source are embedded as executable recursive scanners with the
same backtracking behaviour as the original patterns.
-/

/-! ## Basic string (char-list) utilities -/

/-- Boolean prefix test on char lists (JS `String.prototype.startsWith`). -/
def isPre : List Char → List Char → Bool
  | [], _ => true
  | _ :: _, [] => false
  | a :: p, b :: s => a == b && isPre p s

/-- Boolean substring test on char lists (JS `String.prototype.includes`). -/
def isSub (p : List Char) : List Char → Bool
  | [] => p.isEmpty
  | b :: s => isPre p (b :: s) || isSub p s

/-- Substring test: `strIncludes s pat` is `s.includes(pat)` of the source. -/
def strIncludes (s pat : String) : Bool := isSub pat.data s.data

/-- Whitespace class used by the JS `\s` regex class and `String.trim`
(ASCII part plus NBSP, the only code points the claims exercise). -/
def isJsSpace (c : Char) : Bool :=
  c == ' ' || c == '\t' || c == '\n' || c == '\r' || c == '\x0b' || c == '\x0c' || c == ' '

/-- Word character class of the JS `\w` regex class: `[A-Za-z0-9_]`. -/
def isWordChar (c : Char) : Bool :=
  ('a' ≤ c && c ≤ 'z') || ('A' ≤ c && c ≤ 'Z') || ('0' ≤ c && c ≤ '9') || c == '_'

/-- Drop trailing characters satisfying `isJsSpace` (right half of `trim`). -/
def trimRight : List Char → List Char
  | [] => []
  | a :: s =>
    match trimRight s with
    | [] => if isJsSpace a then [] else [a]
    | b :: r => a :: b :: r

/-- JS `String.prototype.trim`. -/
def jsTrim (s : List Char) : List Char := trimRight (s.dropWhile isJsSpace)

/-- One global-replace pass `code.replace(/pat/g, c)` for a single-character
replacement, fuelled structurally (`fuel` is always the input length, which
suffices because a match consumes at least one character). Matches JS
semantics: leftmost match, non-overlapping, replacements not rescanned. -/
def replOneF (p : List Char) (c : Char) : Nat → List Char → List Char
  | _, [] => []
  | 0, s => s
  | fuel + 1, a :: s =>
    if isPre p (a :: s) && !p.isEmpty then
      c :: replOneF p c fuel ((a :: s).drop p.length)
    else
      a :: replOneF p c fuel s

/-- Global replace of pattern `p` by single character `c`. -/
def replOne (p : List Char) (c : Char) (s : List Char) : List Char :=
  replOneF p c s.length s

/-! ## Code Example Extractor (`extractCodeExamplesFromHtml`) -/

/-- The five entity patterns, in the order the source replaces them. -/
def entLt : List Char := ['&', 'l', 't', ';']

def entGt : List Char := ['&', 'g', 't', ';']

def entAmp : List Char := ['&', 'a', 'm', 'p', ';']

def entQuot : List Char := ['&', 'q', 'u', 'o', 't', ';']

def ent39 : List Char := ['&', '#', '3', '9', ';']

/-- The cleanup applied to each matched code body: decode the five
entities in source order, then trim. -/
def cleanedCode (raw : List Char) : List Char :=
  jsTrim (replOne ent39 '\'' (replOne entQuot '"'
    (replOne entAmp '&' (replOne entGt '>' (replOne entLt '<' raw)))))

/-- Strip a case-insensitive literal (the code-block regex has the `i` flag);
the pattern is given lowercase. -/
def ciStrip : List Char → List Char → Option (List Char)
  | [], s => some s
  | _ :: _, [] => none
  | a :: p, b :: s => if a == b.toLower then ciStrip p s else none

/-- Strip a case-sensitive literal (used by the language regex, no flags). -/
def csStrip : List Char → List Char → Option (List Char)
  | [], s => some s
  | _ :: _, [] => none
  | a :: p, b :: s => if a == b then csStrip p s else none

/-- Greedy `\s+`: requires at least one whitespace character, then munches
the maximal run (no shorter munch can help, the following literal is
non-whitespace). -/
def white1 : List Char → Option (List Char)
  | [] => none
  | c :: s => if isJsSpace c then some (s.dropWhile isJsSpace) else none

/-- Parse `\s+class="([^"]*)"` (case-insensitive literal, greedy value up to
the first quote). Returns the captured class value and the rest. -/
def parseClassAttr (s : List Char) : Option (List Char × List Char) :=
  match white1 s with
  | none => none
  | some s1 =>
    match ciStrip ['c', 'l', 'a', 's', 's', '=', '"'] s1 with
    | none => none
    | some s2 =>
      let v := s2.takeWhile (fun c => !(c == '"'))
      match s2.dropWhile (fun c => !(c == '"')) with
      | '"' :: rest => some (v, rest)
      | _ => none

/-- The lazy body `([\s\S]*?)(?:<\/code>)?<\/pre>`: the shortest body after
which either `</code></pre>` or `</pre>` follows (case-insensitively),
preferring to consume `</code>` as the regex's greedy optional group does. -/
def lazyTail : List Char → Option (List Char × List Char)
  | [] => none
  | a :: s =>
    match ciStrip ['<', '/', 'c', 'o', 'd', 'e', '>'] (a :: s) with
    | some r1 =>
      match ciStrip ['<', '/', 'p', 'r', 'e', '>'] r1 with
      | some r2 => some ([], r2)
      | none =>
        match ciStrip ['<', '/', 'p', 'r', 'e', '>'] (a :: s) with
        | some r3 => some ([], r3)
        | none =>
          match lazyTail s with
          | some (b, r) => some (a :: b, r)
          | none => none
    | none =>
      match ciStrip ['<', '/', 'p', 'r', 'e', '>'] (a :: s) with
      | some r3 => some ([], r3)
      | none =>
        match lazyTail s with
        | some (b, r) => some (a :: b, r)
        | none => none

/-- Parse `<code\s+class="([^"]*)">` returning the class and the rest. -/
def codeOpenWithClass (s : List Char) : Option (List Char × List Char) :=
  match ciStrip ['<', 'c', 'o', 'd', 'e'] s with
  | none => none
  | some s1 =>
    match parseClassAttr s1 with
    | none => none
    | some (v, s2) =>
      match s2 with
      | '>' :: r => some (v, r)
      | _ => none

/-- Parse `<code>` (no class attribute) returning the rest. -/
def codeOpenNoClass (s : List Char) : Option (List Char) :=
  match ciStrip ['<', 'c', 'o', 'd', 'e'] s with
  | none => none
  | some s1 =>
    match s1 with
    | '>' :: r => some r
    | _ => none

/-- After `<pre...>`: try the optional `<code>` group's alternatives in the
regex's backtracking order — code tag with class, code tag without class,
then no code tag — each continued by the lazy body and close tags.
Returns `(codeClass, body, rest)`. -/
def afterPreOpen (s : List Char) : Option (List Char × List Char × List Char) :=
  (match codeOpenWithClass s with
   | some (v, s1) => (lazyTail s1).map (fun br => (v, br.1, br.2))
   | none => none)
  <|>
  (match codeOpenNoClass s with
   | some s2 => (lazyTail s2).map (fun br => (([] : List Char), br.1, br.2))
   | none => none)
  <|>
  (lazyTail s).map (fun br => (([] : List Char), br.1, br.2))

/-- A single attempt of the code-block regex
`<pre(?:\s+class="([^"]*)")?>(?:<code(?:\s+class="([^"]*)")?>)?([\s\S]*?)(?:<\/code>)?<\/pre>`
anchored at the start of `s`; returns `(preClass, codeClass, body, rest)`. -/
def matchPreAt (s : List Char) : Option (List Char × List Char × List Char × List Char) :=
  match ciStrip ['<', 'p', 'r', 'e'] s with
  | none => none
  | some s1 =>
    (match parseClassAttr s1 with
     | some (pv, s2) =>
       match s2 with
       | '>' :: s3 => (afterPreOpen s3).map (fun t => (pv, t.1, t.2.1, t.2.2))
       | _ => none
     | none => none)
    <|>
    (match s1 with
     | '>' :: s3 => (afterPreOpen s3).map (fun t => (([] : List Char), t.1, t.2.1, t.2.2))
     | _ => none)

/-- The global `exec` loop of the code-block regex: scan left to right, on a
match continue after it, otherwise advance one character. Fuelled by the
input length (a match always consumes at least one character). -/
def scanBlocksF : Nat → List Char → List (List Char × List Char × List Char)
  | 0, _ => []
  | _, [] => []
  | fuel + 1, a :: s =>
    match matchPreAt (a :: s) with
    | some (pc, cc, body, rest) => (pc, cc, body) :: scanBlocksF fuel rest
    | none => scanBlocksF fuel s

/-- The language regex `/language-(\w+)|lang-(\w+)|(\w+)-code/` tried at one
position, alternatives in order (case-sensitive, no flags). -/
def langMatchAt (s : List Char) : Option (List Char) :=
  (match csStrip ['l', 'a', 'n', 'g', 'u', 'a', 'g', 'e', '-'] s with
   | some r =>
     let w := r.takeWhile isWordChar
     if w.isEmpty then none else some w
   | none => none)
  <|>
  (match csStrip ['l', 'a', 'n', 'g', '-'] s with
   | some r =>
     let w := r.takeWhile isWordChar
     if w.isEmpty then none else some w
   | none => none)
  <|>
  (let w := s.takeWhile isWordChar
   if w.isEmpty then none
   else
     match csStrip ['-', 'c', 'o', 'd', 'e'] (s.drop w.length) with
     | some _ => some w
     | none => none)

/-- Leftmost match of the language regex (`String.prototype.match`). -/
def findLangMatch : List Char → Option (List Char)
  | [] => none
  | a :: s => langMatchAt (a :: s) <|> findLangMatch s

/-- Language inference: `codeClass || preClass`, then the language regex,
defaulting to `javascript`. -/
def langOf (preClass codeClass : List Char) : List Char :=
  let classToCheck := if codeClass.isEmpty then preClass else codeClass
  if classToCheck.isEmpty then "javascript".data
  else
    match findLangMatch classToCheck with
    | some w => w
    | none => "javascript".data

/-- Structure `CodeExample` of the source (`description`/`filename` never set by the
extractor). -/
structure CodeExample where
  language : String
  code : String
  description : Option String := none
  filename : Option String := none
deriving DecidableEq, Repr

/-- Function `extractCodeExamplesFromHtml` of the source. -/
def extractCodeExamplesFromHtml (html : String) : List CodeExample :=
  (scanBlocksF html.data.length html.data).map fun t =>
    { language := String.mk (langOf t.1 t.2.1), code := String.mk (cleanedCode t.2.2) }

/-! ## Dependency Detector (`detectDependenciesFromCode`, `extractPackageName`) -/

/-- Is the character one of the two JS quote characters of `['"]`? -/
def isQuoteCh (c : Char) : Bool := c == '\'' || c == '"'

/-- Parse `['"]([^'"]+)['"]`: an opening quote (either kind), a non-empty
captured run free of both quote characters, and a closing quote (either
kind). Returns the capture and the rest. -/
def quotedPath (s : List Char) : Option (List Char × List Char) :=
  match s with
  | [] => none
  | q :: s1 =>
    if isQuoteCh q then
      let v := s1.takeWhile (fun c => !isQuoteCh c)
      if v.isEmpty then none
      else
        match s1.dropWhile (fun c => !isQuoteCh c) with
        | c :: rest => if isQuoteCh c then some (v, rest) else none
        | [] => none
    else none

/-- Parse `\s+from\s+`. -/
def fromPart (s : List Char) : Option (List Char) :=
  match white1 s with
  | none => none
  | some s1 =>
    match csStrip ['f', 'r', 'o', 'm'] s1 with
    | none => none
    | some s2 => white1 s2

/-- Parse `\{[^}]*\}` (greedy interior up to the first closing brace). -/
def bracesPart (s : List Char) : Option (List Char) :=
  match s with
  | '{' :: s1 =>
    (match s1.dropWhile (fun c => !(c == '}')) with
     | '}' :: rest => some rest
     | _ => none)
  | _ => none

/-- Parse `\*\s+as\s+\w+`. -/
def starAsPart (s : List Char) : Option (List Char) :=
  match s with
  | '*' :: s1 =>
    (match white1 s1 with
     | none => none
     | some s2 =>
       match csStrip ['a', 's'] s2 with
       | none => none
       | some s3 =>
         match white1 s3 with
         | none => none
         | some s4 =>
           let w := s4.takeWhile isWordChar
           if w.isEmpty then none else some (s4.drop w.length))
  | _ => none

/-- Parse `\w+` (at least one word character). -/
def wordPart (s : List Char) : Option (List Char) :=
  let w := s.takeWhile isWordChar
  if w.isEmpty then none else some (s.drop w.length)

/-- A single attempt of the import regex
`import\s+(?:(?:\{[^}]*\}|\*\s+as\s+\w+|\w+)\s+from\s+)?['"]([^'"]+)['"]`
anchored at the start of `s`, with the regex's backtracking order over the
optional clause's alternatives. Returns the captured module path and rest. -/
def importMatchAt (s : List Char) : Option (List Char × List Char) :=
  match csStrip ['i', 'm', 'p', 'o', 'r', 't'] s with
  | none => none
  | some s1 =>
    match white1 s1 with
    | none => none
    | some s2 =>
      (match bracesPart s2 with
       | some s3 => match fromPart s3 with
         | some s4 => quotedPath s4
         | none => none
       | none => none)
      <|>
      (match starAsPart s2 with
       | some s3 => match fromPart s3 with
         | some s4 => quotedPath s4
         | none => none
       | none => none)
      <|>
      (match wordPart s2 with
       | some s3 => match fromPart s3 with
         | some s4 => quotedPath s4
         | none => none
       | none => none)
      <|>
      quotedPath s2

/-- Parse `\s+=\s+require\(` then the quoted path and `\)`. -/
def requireCallPart (s : List Char) : Option (List Char × List Char) :=
  match white1 s with
  | none => none
  | some s1 =>
    match csStrip ['='] s1 with
    | none => none
    | some s2 =>
      match white1 s2 with
      | none => none
      | some s3 =>
        match csStrip ['r', 'e', 'q', 'u', 'i', 'r', 'e', '('] s3 with
        | none => none
        | some s4 =>
          match quotedPath s4 with
          | none => none
          | some (v, s5) =>
            match s5 with
            | ')' :: rest => some (v, rest)
            | _ => none

/-- A single attempt of the require regex
`(?:const|let|var)\s+(?:\{[^}]*\}|\w+)\s+=\s+require\(['"]([^'"]+)['"]\)`
anchored at the start of `s`. -/
def requireMatchAt (s : List Char) : Option (List Char × List Char) :=
  ((match csStrip ['c', 'o', 'n', 's', 't'] s with
    | some s1 => some s1
    | none => none)
   <|>
   (match csStrip ['l', 'e', 't'] s with
    | some s1 => some s1
    | none => none)
   <|>
   (match csStrip ['v', 'a', 'r'] s with
    | some s1 => some s1
    | none => none)).bind fun s1 =>
    match white1 s1 with
    | none => none
    | some s2 =>
      (match bracesPart s2 with
       | some s3 => requireCallPart s3
       | none => none)
      <|>
      (match wordPart s2 with
       | some s3 => requireCallPart s3
       | none => none)

/-- The global `exec` loop of the import regex. -/
def importScanF : Nat → List Char → List (List Char)
  | 0, _ => []
  | _, [] => []
  | fuel + 1, a :: s =>
    match importMatchAt (a :: s) with
    | some (path, rest) => path :: importScanF fuel rest
    | none => importScanF fuel s

/-- The global `exec` loop of the require regex. -/
def requireScanF : Nat → List Char → List (List Char)
  | 0, _ => []
  | _, [] => []
  | fuel + 1, a :: s =>
    match requireMatchAt (a :: s) with
    | some (path, rest) => path :: requireScanF fuel rest
    | none => requireScanF fuel s

/-- All module paths captured by the import regex over `code`. -/
def importScan (code : List Char) : List (List Char) := importScanF code.length code

/-- All module paths captured by the require regex over `code`. -/
def requireScan (code : List Char) : List (List Char) := requireScanF code.length code

/-- JS `path.split('/')` for the single-character separator. -/
def splitSlash : List Char → List (List Char)
  | [] => [[]]
  | c :: s =>
    if c == '/' then [] :: splitSlash s
    else
      match splitSlash s with
      | [] => [[c]]
      | h :: t => (c :: h) :: t

/-- JS `parts.join('/')`. -/
def joinSlash : List (List Char) → List Char
  | [] => []
  | [x] => x
  | x :: xs => x ++ '/' :: joinSlash xs

/-- Function `extractPackageName` of the source: `null` for local paths, the first two
segments for scoped packages, the first segment for other multi-segment
paths, the path itself otherwise. -/
def extractPackageName (p : List Char) : Option (List Char) :=
  if isPre ['.'] p || isPre ['/'] p then none
  else if p.contains '/' then
    if isPre ['@'] p then some (joinSlash ((splitSlash p).take 2))
    else some (((splitSlash p).headD []))
  else some p

/-- The fixed JS-family language set scanned by the detector. -/
def jsFamily : List String := ["javascript", "typescript", "jsx", "tsx"]

/-- Model of `Set.add` on the insertion-ordered list model of a JS `Set`. -/
def insertUnique (l : List String) (x : String) : List String :=
  if l.contains x then l else l ++ [x]

/-- Add the normalized package names of the captured paths to the set. -/
def addPaths (deps : List String) (paths : List (List Char)) : List String :=
  paths.foldl
    (fun d p =>
      match extractPackageName p with
      | some n => insertUnique d (String.mk n)
      | none => d)
    deps

/-- One step of the detector's loop over examples: scan only examples whose
language is (case-sensitively) in the JS family. -/
def detectStep (deps : List String) (ex : CodeExample) : List String :=
  if jsFamily.contains ex.language then
    addPaths deps (importScan ex.code.data ++ requireScan ex.code.data)
  else deps

/-- Function `detectDependenciesFromCode` of the source. -/
def detectDependenciesFromCode (exs : List CodeExample) : List String :=
  exs.foldl detectStep []

/-! ## Capability Adapter (`StagehandAutomation`) and Orchestrator (`analyzeToolUrl`)

The automation backend has an unknown method surface; each optional method is
modelled as an `Option`al pure behaviour. Browser-side page state is the
current URL, threaded through the run state and passed to the backend's
`evaluate` behaviour. A trace of events records navigations (with call-site
phase and outcome) and adapter `close()` invocations. -/

/-- Data extracted from a page (`ExtractedData`), as a JSON-object model. -/
abbrev ExtractedData := List (String × String)

/-- A link observation (`{ text, href }`, either possibly absent). -/
structure DocLink where
  text : Option String
  href : Option String
deriving DecidableEq, Repr

/-- A button observation (`{ text, disabled }`). -/
structure BtnObs where
  text : Option String
  disabled : Bool
deriving DecidableEq, Repr

/-- A page observation (`ObservationResult`); `links`/`buttons` are present
only when the backend produced top-level arrays for them. -/
structure ObservationResult where
  links : Option (List DocLink) := none
  buttons : Option (List BtnObs) := none
deriving DecidableEq, Repr

/-- Which in-page function is being evaluated (the three `evaluate`
call sites of the source). -/
inductive EvalFn
  | outerHTML
  | readMeta
  | readLinks
deriving DecidableEq, Repr

/-- A JS value returned by `browser.evaluate` (string / object shapes the
orchestrator distinguishes). -/
inductive EvalVal
  | str (s : String)
  | data (d : ExtractedData)
  | obs (o : ObservationResult)
  | other
deriving DecidableEq, Repr

/-- The opaque backend session object (`StagehandBrowser`): any subset of the
probed verbs may be present; each behaviour may throw (`Except.error`). -/
structure Browser where
  goto? : Option (String → Except String Unit) := none
  navigate? : Option (String → Except String Unit) := none
  act? : Option (String → Except String Unit) := none
  extract? : Option (String → Except String ExtractedData) := none
  observe? : Option (String → Except String ObservationResult) := none
  evaluate? : Option (EvalFn → Option String → Except String EvalVal) := none
  close? : Option (Except String Unit) := none
  exit? : Option (Except String Unit) := none
  quit? : Option (Except String Unit) := none

/-- The loaded `stagehand` library reference: a launch entry point and/or a
browser-constructor entry point (the constructor model folds `new Browser()`
plus its `launch()` into one outcome). -/
structure StagehandLib where
  launch? : Option (Except String Browser) := none
  browserCtor? : Option (Except String Browser) := none

/-- Error taxonomy: one constructor per throw site of the source. -/
inductive AutoErr
  | libUnavailable
  | initFailed (cause : String)
  | notInitialized
  | navigationFailed (cause : String)
  | extractionFailed (cause : String)
  | observationFailed (cause : String)
  | evaluationFailed (cause : String)
  | analysisFailed (cause : AutoErr)
deriving DecidableEq, Repr

/-- Mock `goto` added by `initialize` when the launched browser exposes no
navigation verb (logs and resolves). -/
def mockGoto : String → Except String Unit := fun _ => .ok ()

/-- Mock `act` added alongside `mockGoto`. -/
def mockAct : String → Except String Unit := fun _ => .ok ()

/-- Mock `extract` payload added alongside `mockGoto`. -/
def mockExtract : String → Except String ExtractedData := fun _ =>
  .ok [("name", "external-tool"), ("description", "External tool integration"),
       ("purpose", "Integration with external tool")]

/-- Mock `observe` payload added alongside `mockGoto` (top-level links). -/
def mockObserve : String → Except String ObservationResult := fun _ =>
  .ok { links := some [⟨some "Documentation", some "#docs"⟩, ⟨some "API", some "#api"⟩],
        buttons := some [⟨some "Login", false⟩, ⟨some "Submit", false⟩] }

/-- The tier-(c) offline mock backend `initialize` falls back to when the
library exposes neither entry point: `goto`, `evaluate` (returning a fixed
non-string object) and `close`. -/
def tierCBrowser : Browser :=
  { goto? := some (fun _ => .ok ())
    evaluate? := some (fun _ _ => .ok .other)
    close? := some (.ok ()) }

/-- Add the mock navigation methods when the launched browser has none of
`goto`/`navigate`/`act` (this also overwrites `extract` and `observe`, as the
source does). -/
def addMockMethods (b : Browser) : Browser :=
  if b.goto?.isNone && b.navigate?.isNone && b.act?.isNone then
    { b with goto? := some mockGoto, act? := some mockAct,
             extract? := some mockExtract, observe? := some mockObserve }
  else b

/-- Model of `StagehandAutomation.initialize`: fails with the library-unavailable
error only when the library reference is absent; otherwise probes `launch`,
then the `Browser` constructor, then falls back to the tier-(c) mock. An
exception from an entry point becomes the init-failed error. -/
def initAdapter (lib : Option StagehandLib) : Except AutoErr Browser :=
  match lib with
  | none => .error .libUnavailable
  | some l =>
    match l.launch? with
    | some (.ok b) => .ok (addMockMethods b)
    | some (.error e) => .error (.initFailed e)
    | none =>
      match l.browserCtor? with
      | some (.ok b) => .ok b
      | some (.error e) => .error (.initFailed e)
      | none => .ok tierCBrowser

/-- Adapter run state: the bound backend handle (if initialized) and the
browser's current page URL. `close()` does not clear `browser`. -/
structure RunSt where
  browser : Option Browser
  cur : Option String

/-- Call-site phase of a navigation: the primary navigation to the input
URL, or the guided crawl's extra hop. -/
inductive NavPhase
  | primary
  | hop
deriving DecidableEq, Repr

/-- Trace events: adapter navigation attempts (with outcome) and adapter
`close()` invocations. -/
inductive Ev
  | nav (phase : NavPhase) (target : String) (ok : Bool)
  | closeCall
deriving DecidableEq, Repr

/-- Model of `StagehandAutomation.navigateTo`: state check, then `goto` /
`navigate` / `act` in order; a missing verb set or a backend exception
becomes a navigation-failed error. A successful call moves the browser to
the target URL. -/
def navigateTo (st : RunSt) (phase : NavPhase) (url : String) :
    Except AutoErr Unit × RunSt × List Ev :=
  match st.browser with
  | none => (.error .notInitialized, st, [.nav phase url false])
  | some b =>
    match b.goto? with
    | some f =>
      match f url with
      | .ok _ => (.ok (), { st with cur := some url }, [.nav phase url true])
      | .error e => (.error (.navigationFailed e), st, [.nav phase url false])
    | none =>
      match b.navigate? with
      | some f =>
        match f url with
        | .ok _ => (.ok (), { st with cur := some url }, [.nav phase url true])
        | .error e => (.error (.navigationFailed e), st, [.nav phase url false])
      | none =>
        match b.act? with
        | some f =>
          match f ("Navigate to " ++ url) with
          | .ok _ => (.ok (), { st with cur := some url }, [.nav phase url true])
          | .error e => (.error (.navigationFailed e), st, [.nav phase url false])
        | none =>
          (.error (.navigationFailed "No compatible navigation method found in Stagehand browser"),
           st, [.nav phase url false])

/-- Coerce an evaluate result used in place of structured extraction. -/
def coerceED : EvalVal → ExtractedData
  | .data d => d
  | _ => []

/-- Coerce an evaluate result used in place of a structured observation. -/
def coerceObs : EvalVal → ObservationResult
  | .obs o => o
  | _ => {}

/-- The fixed placeholder payload of `extractData`'s third tier (top-level
`message` plus nested mock data; content advisory only). -/
def extractUnsupportedPayload : ExtractedData :=
  [("message", "Data extraction not supported by this Stagehand implementation")]

/-- Model of `StagehandAutomation.extractData`: state check; `extract` verb, else the
in-page evaluation fallback, else the placeholder payload. Only a backend
exception produces the extraction-failed error. -/
def extractData (st : RunSt) (instr : String) : Except AutoErr ExtractedData × RunSt :=
  match st.browser with
  | none => (.error .notInitialized, st)
  | some b =>
    match b.extract? with
    | some f =>
      match f instr with
      | .ok d => (.ok d, st)
      | .error e => (.error (.extractionFailed e), st)
    | none =>
      match b.evaluate? with
      | some f =>
        match f .readMeta st.cur with
        | .ok v => (.ok (coerceED v), st)
        | .error e => (.error (.extractionFailed e), st)
      | none => (.ok extractUnsupportedPayload, st)

/-- Model of `StagehandAutomation.observePage`: same three-tier shape as
`extractData`; the third tier's payload nests its mock links, so the
orchestrator sees no top-level `links` array from it. -/
def observePage (st : RunSt) (instr : String) : Except AutoErr ObservationResult × RunSt :=
  match st.browser with
  | none => (.error .notInitialized, st)
  | some b =>
    match b.observe? with
    | some f =>
      match f instr with
      | .ok o => (.ok o, st)
      | .error e => (.error (.observationFailed e), st)
    | none =>
      match b.evaluate? with
      | some f =>
        match f .readLinks st.cur with
        | .ok v => (.ok (coerceObs v), st)
        | .error e => (.error (.observationFailed e), st)
      | none => (.ok {}, st)

/-- Model of `StagehandAutomation.evaluate`: state check; the `evaluate` verb when
present, else a labelled placeholder object (never a string). -/
def evaluateA (st : RunSt) (fn : EvalFn) : Except AutoErr EvalVal × RunSt :=
  match st.browser with
  | none => (.error .notInitialized, st)
  | some b =>
    match b.evaluate? with
    | some f =>
      match f fn st.cur with
      | .ok v => (.ok v, st)
      | .error e => (.error (.evaluationFailed e), st)
    | none => (.ok .other, st)

/-- Model of `StagehandAutomation.close`: tries `close`, then `exit`, then `quit`;
a missing verb set only logs, and a backend exception is caught and logged.
The adapter therefore never raises from `close`, and it does not clear the
`browser` handle. -/
def closeA (st : RunSt) : Except AutoErr Unit × RunSt × List Ev :=
  match st.browser with
  | none => (.ok (), st, [.closeCall])
  | some b =>
    let _backendOutcome : Except String Unit :=
      match b.close? with
      | some r => r
      | none =>
        match b.exit? with
        | some r => r
        | none =>
          match b.quit? with
          | some r => r
          | none => .ok ()
    (.ok (), st, [.closeCall])

/-- JS `String.prototype.toLowerCase` on the char-list string model. -/
def lowerStr (s : String) : String := String.mk (s.data.map Char.toLower)

/-- The documentation-candidate filter on observed links (text keywords on
the lowercased text, href keywords on the raw href). -/
def isDocCandidate (l : DocLink) : Bool :=
  let t := lowerStr (l.text.getD "")
  let h := l.href.getD ""
  strIncludes t "doc" || strIncludes t "guide" || strIncludes t "start" ||
  strIncludes t "quick" || strIncludes t "install" || strIncludes t "api" ||
  strIncludes h "docs" || strIncludes h "guide" || strIncludes h "getting-started" ||
  strIncludes h "quick-start" || strIncludes h "install" || strIncludes h "api"

/-- The follow test inside the crawl loop: the lowercased link text must
contain `quick start` or `getting started`. -/
def isQuickText (l : DocLink) : Bool :=
  let t := lowerStr (l.text.getD "")
  strIncludes t "quick start" || strIncludes t "getting started"

/-- Re-deduplicate (`[...new Set([...])]`), keeping first-insertion order. -/
def dedupAll (l : List String) : List String := l.foldl insertUnique []

/-- The guided-crawl loop of `analyzeToolUrl` over the documentation
candidates: follow the first link whose text matches; on navigation failure
log and continue with the remaining candidates; after a successful
navigation, best-effort extract from the new page and stop (`break`).
Returns the accumulated examples, dependencies, state and trace. -/
def followDocLinks : List DocLink → RunSt → List CodeExample → List String →
    List CodeExample × List String × RunSt × List Ev
  | [], st, exs, deps => (exs, deps, st, [])
  | l :: rest, st, exs, deps =>
    if isQuickText l then
      match navigateTo st .hop (l.href.getD "") with
      | (.ok _, st1, t1) =>
        (match evaluateA st1 .outerHTML with
         | (.ok (.str h), st2) =>
           let newExs := extractCodeExamplesFromHtml h
           (exs ++ newExs, dedupAll (deps ++ detectDependenciesFromCode newExs), st2, t1)
         | (.ok _, st2) => (exs, deps, st2, t1)
         | (.error _, st2) => (exs, deps, st2, t1))
      | (.error _, st1, t1) =>
        match followDocLinks rest st1 exs deps with
        | (a, d, st2, t2) => (a, d, st2, t1 ++ t2)
    else followDocLinks rest st exs deps

/-- The fixed extraction instruction of the orchestrator. -/
def extractInstr : String :=
  "Extract information about this tool including: name, description, purpose, API endpoints if visible, and authentication requirements"

/-- The fixed observation instruction of the orchestrator. -/
def observeInstr : String :=
  "Analyze the page structure and identify main UI components, navigation elements, and interactive features"

/-- Structure `ToolAnalysisResult` of the source (the timestamp is abstracted to a
fixed value; the claims do not inspect it). -/
structure ToolAnalysisResult where
  url : String
  toolInfo : ExtractedData
  pageStructure : ObservationResult
  codeExamples : List CodeExample
  dependencies : List String
  timestamp : String
deriving DecidableEq, Repr

/-- The `try` body of `analyzeToolUrl`: initialize, navigate, extract,
observe, best-effort markup evaluation plus extraction, guided crawl, then
assemble the profile. Errors up to the observation abort the body. -/
def analyzeBody (lib : Option StagehandLib) (url : String) :
    Except AutoErr ToolAnalysisResult × RunSt × List Ev :=
  match initAdapter lib with
  | .error e => (.error e, ⟨none, none⟩, [])
  | .ok b =>
    match navigateTo ⟨some b, none⟩ .primary url with
    | (.error e, st1, t1) => (.error e, st1, t1)
    | (.ok _, st1, t1) =>
      match extractData st1 extractInstr with
      | (.error e, st2) => (.error e, st2, t1)
      | (.ok toolInfo, st2) =>
        match observePage st2 observeInstr with
        | (.error e, st3) => (.error e, st3, t1)
        | (.ok pageStructure, st3) =>
          let step :=
            match evaluateA st3 .outerHTML with
            | (.ok (.str h), st4) =>
              let ce := extractCodeExamplesFromHtml h
              (ce, detectDependenciesFromCode ce, st4)
            | (.ok _, st4) => ([], [], st4)
            | (.error _, st4) => ([], [], st4)
          let docLinks :=
            match pageStructure.links with
            | some ls => ls.filter isDocCandidate
            | none => []
          match followDocLinks docLinks step.2.2 step.1 step.2.1 with
          | (exs1, deps1, st5, t5) =>
            (.ok { url := url, toolInfo := toolInfo, pageStructure := pageStructure,
                   codeExamples := exs1, dependencies := deps1, timestamp := "" },
             st5, t1 ++ t5)

/-- Function `analyzeToolUrl`: run the body, wrap a body error in the top-level
analysis-failed error, and close the adapter in the `finally` block on every
exit path. -/
def analyzeToolUrl (lib : Option StagehandLib) (url : String) :
    Except AutoErr ToolAnalysisResult × List Ev :=
  match analyzeBody lib url with
  | (r, st, t) =>
    match closeA st with
    | (_, _, tc) =>
      match r with
      | .ok p => (.ok p, t ++ tc)
      | .error e => (.error (.analysisFailed e), t ++ tc)

/-- Decidable equality on `Except` values, for concrete evaluation of run
results. -/
instance {ε α : Type} [DecidableEq ε] [DecidableEq α] : DecidableEq (Except ε α) := fun a b =>
  match a, b with
  | .ok x, .ok y =>
    if h : x = y then isTrue (by rw [h])
    else isFalse (by intro g; injection g; exact h (by assumption))
  | .error x, .error y =>
    if h : x = y then isTrue (by rw [h])
    else isFalse (by intro g; injection g; exact h (by assumption))
  | .ok _, .error _ => isFalse (by intro g; exact Except.noConfusion g)
  | .error _, .ok _ => isFalse (by intro g; exact Except.noConfusion g)

/-! ## Trace observers -/

/-- Count of adapter `close()` invocations in a trace. -/
def closeCount : List Ev → Nat
  | [] => 0
  | .closeCall :: t => closeCount t + 1
  | .nav _ _ _ :: t => closeCount t

/-- Count of adapter navigation attempts in a trace. -/
def navCount : List Ev → Nat
  | [] => 0
  | .nav _ _ _ :: t => navCount t + 1
  | .closeCall :: t => navCount t

/-- Is the event a successful hop (guided-crawl) navigation? -/
def isHopOk : Ev → Bool
  | .nav .hop _ true => true
  | _ => false

/-- Count of successful hop navigations in a trace. -/
def hopOkCount : List Ev → Nat
  | [] => 0
  | e :: t => (if isHopOk e then 1 else 0) + hopOkCount t

/-- Number of navigation attempts occurring strictly after the first
successful hop navigation of the trace. -/
def navAfterHopOk : List Ev → Nat
  | [] => 0
  | e :: t => if isHopOk e then navCount t else navAfterHopOk t

/-- Target of the first navigation event of a trace, if any. -/
def firstNavTarget : List Ev → Option String
  | [] => none
  | .nav _ u _ :: _ => some u
  | .closeCall :: t => firstNavTarget t

/-! ## Lemmas: package-name normalization -/

theorem isPre_single (c a : Char) (s : List Char) : isPre [c] (a :: s) = (c == a) := by
  simp [isPre]

theorem splitSlash_append (x y : List Char) (hx : '/' ∉ x) :
    splitSlash (x ++ '/' :: y) = x :: splitSlash y := by
  induction x with
  | nil => simp [splitSlash]
  | cons c x ih =>
    have hc : (c == '/') = false := beq_eq_false_iff_ne.mpr fun h => hx (by simp [h])
    have hx' : '/' ∉ x := fun h => hx (List.mem_cons_of_mem _ h)
    simp [splitSlash, hc, ih hx']

/-- C2: the dependency detector's package-name normalization — local paths
(leading `.` or `/`) are excluded; a scoped multi-segment path keeps its
first two segments; an unscoped multi-segment path keeps its first segment;
a single-segment path is returned unchanged. -/
theorem c2_extractPackageName_spec :
    (∀ p : List Char, (isPre ['.'] p || isPre ['/'] p) = true → extractPackageName p = none)
  ∧ (∀ s t u : List Char, '/' ∉ s → '/' ∉ t →
      extractPackageName ('@' :: s ++ '/' :: t ++ '/' :: u) = some ('@' :: s ++ '/' :: t))
  ∧ (∀ (c : Char) (t u : List Char), '/' ∉ (c :: t) → c ≠ '.' → c ≠ '@' →
      extractPackageName (c :: t ++ '/' :: u) = some (c :: t))
  ∧ (∀ p : List Char, '/' ∉ p → isPre ['.'] p = false → isPre ['/'] p = false →
      extractPackageName p = some p) := by
  refine ⟨?_, ?_, ?_, ?_⟩
  · intro p h
    simp [extractPackageName, h]
  · intro s t u hs ht
    have hsc : '/' ∉ ('@' :: s) := by simp [hs]
    have hsplit : splitSlash (('@' :: s) ++ '/' :: (t ++ '/' :: u)) =
        ('@' :: s) :: splitSlash (t ++ '/' :: u) := splitSlash_append _ _ hsc
    have hsplit2 : splitSlash (t ++ '/' :: u) = t :: splitSlash u := splitSlash_append _ _ ht
    have hm : '/' ∈ ('@' :: s ++ '/' :: t ++ '/' :: u) := by simp
    simp only [List.cons_append] at hsplit
    have d1 : ('.' == '@') = false := by decide
    have d2 : ('/' == '@') = false := by decide
    have d3 : ('@' == '@') = true := by decide
    simp [extractPackageName, isPre_single, d1, d2, d3, hm, hsplit, hsplit2, joinSlash]
  · intro c t u hct hcdot hcat
    have hsplit : splitSlash ((c :: t) ++ '/' :: u) = (c :: t) :: splitSlash u :=
      splitSlash_append _ _ hct
    simp only [List.cons_append] at hsplit
    have hm : '/' ∈ (c :: t ++ '/' :: u) := by simp
    have d1 : ('.' == c) = false := beq_eq_false_iff_ne.mpr (Ne.symm hcdot)
    have d2 : ('@' == c) = false := beq_eq_false_iff_ne.mpr (Ne.symm hcat)
    have hcslash : c ≠ '/' := by
      intro h
      exact hct (by simp [h])
    have d3 : ('/' == c) = false := beq_eq_false_iff_ne.mpr (Ne.symm hcslash)
    simp [extractPackageName, isPre_single, d1, d2, d3, hm, hsplit]
  · intro p hc h1 h2
    simp [extractPackageName, h1, h2, hc]

/-! ## Lemmas: the entity-decode chain and late-pass entities

The decode chain replaces `&lt;`, `&gt;`, `&amp;`, `&quot;`, `&#39;` in that
order. A pass for pattern `p` with single-character replacement `c` leaves no
occurrence of `p` when `c` does not occur in `p`, and later passes cannot
re-introduce a pattern that does not contain their replacement character,
because replaced segments and the surrounding kept segments only ever
abut through the inserted replacement character. -/

theorem isSub_nil (p : List Char) : isSub p [] = p.isEmpty := rfl

theorem isSub_cons (p : List Char) (a : Char) (s : List Char) :
    isSub p (a :: s) = (isPre p (a :: s) || isSub p s) := rfl

theorem isEmpty_false_of_ne {p : List Char} (hne : p ≠ []) : p.isEmpty = false := by
  cases p with
  | nil => exact absurd rfl hne
  | cons a p => rfl

theorem isPre_cons₂ (a b : Char) (p s : List Char) :
    isPre (a :: p) (b :: s) = (a == b && isPre p s) := rfl

/-- Partial-pattern tracking: if a non-trivial tail of `p` is a prefix of a
replace-pass output, it was already a prefix of the pass's input (the output
head is either the replacement character, impossible since `c ∉ p`, or the
kept input head). -/
theorem isPre_drop_replOneF (p q : List Char) (c : Char) (hc : c ∉ p) :
    ∀ (fuel : Nat) (s : List Char) (k : Nat), 0 < k → k < p.length →
      isPre (p.drop k) (replOneF q c fuel s) = true → isPre (p.drop k) s = true := by
  intro fuel
  induction fuel with
  | zero =>
    intro s k _ _ h
    cases s with
    | nil => simpa [replOneF] using h
    | cons a s => simpa [replOneF] using h
  | succ fuel ih =>
    intro s k hk0 hk h
    cases s with
    | nil => simpa [replOneF] using h
    | cons a s =>
      have hdrop : p.drop k = p[k] :: p.drop (k + 1) := List.drop_eq_getElem_cons hk
      simp only [replOneF] at h
      split at h
      · rw [hdrop, isPre_cons₂, Bool.and_eq_true] at h
        exact absurd (by rw [← eq_of_beq h.1]; exact p.getElem_mem hk) hc
      · rw [hdrop, isPre_cons₂, Bool.and_eq_true] at h
        rw [hdrop, isPre_cons₂, Bool.and_eq_true]
        rcases Nat.lt_or_ge (k + 1) p.length with hlt | hge
        · exact ⟨h.1, ih s (k + 1) (by omega) hlt h.2⟩
        · have hend : p.drop (k + 1) = [] := List.drop_eq_nil_of_le hge
          rw [hend]
          exact ⟨h.1, rfl⟩

/-- A replace pass for `p` with replacement `c ∉ p` leaves no occurrence of
`p` in its output (given enough fuel, i.e. the wrapper's choice). -/
theorem isSub_replOneF_self (p : List Char) (c : Char) (hne : p ≠ []) (hc : c ∉ p) :
    ∀ (fuel : Nat) (s : List Char), s.length ≤ fuel →
      isSub p (replOneF p c fuel s) = false := by
  intro fuel
  induction fuel with
  | zero =>
    intro s hs
    have : s = [] := List.eq_nil_of_length_eq_zero (Nat.le_zero.mp hs)
    subst this
    simp [replOneF, isSub_nil, isEmpty_false_of_ne hne]
  | succ fuel ih =>
    intro s hs
    cases s with
    | nil => simp [replOneF, isSub_nil, isEmpty_false_of_ne hne]
    | cons a s =>
      simp only [replOneF]
      split
      case isTrue hcond =>
        rw [isSub_cons]
        have h1 : isPre p (c :: replOneF p c fuel ((a :: s).drop p.length)) = false := by
          cases p with
          | nil => exact absurd rfl hne
          | cons x p' =>
            have hxc : (x == c) = false :=
              beq_eq_false_iff_ne.mpr fun h => hc (by simp [h])
            simp [isPre, hxc]
        have h2 : isSub p (replOneF p c fuel ((a :: s).drop p.length)) = false := by
          apply ih
          have hp1 : 1 ≤ p.length := by
            cases p with
            | nil => exact absurd rfl hne
            | cons _ _ => simp
          have hs' : s.length + 1 ≤ fuel + 1 := by simpa using hs
          simp only [List.length_drop, List.length_cons]
          omega
        simp [h1, h2]
      case isFalse hcond =>
        rw [isSub_cons]
        have h2 : isSub p (replOneF p c fuel s) = false := by
          apply ih
          have hs' : s.length + 1 ≤ fuel + 1 := by simpa using hs
          omega
        have h1 : isPre p (a :: replOneF p c fuel s) = false := by
          cases hb : isPre p (a :: replOneF p c fuel s) with
          | false => rfl
          | true =>
            exfalso
            cases p with
            | nil => exact hne rfl
            | cons x p' =>
              rw [isPre_cons₂, Bool.and_eq_true] at hb
              have hpre : isPre (x :: p') (a :: s) = true := by
                rw [isPre_cons₂, Bool.and_eq_true]
                refine ⟨hb.1, ?_⟩
                cases p' with
                | nil => rfl
                | cons y p'' =>
                  have haux := isPre_drop_replOneF (x :: y :: p'') (x :: y :: p'') c hc fuel s 1
                    (by omega) (by simp) (by simpa using hb.2)
                  simpa using haux
              exact hcond (by simp [hpre])
        simp [h1, h2]

theorem isSub_drop (p : List Char) :
    ∀ (s : List Char) (n : Nat), isSub p s = false → isSub p (s.drop n) = false := by
  intro s
  induction s with
  | nil =>
    intro n h
    simpa using h
  | cons a s ih =>
    intro n h
    cases n with
    | zero => simpa using h
    | succ n =>
      have hsub : isSub p s = false := by
        rw [isSub_cons] at h
        exact (Bool.or_eq_false_iff.mp h).2
      simpa using ih n hsub

/-- A replace pass for any pattern `q` with replacement `c ∉ p` cannot
introduce an occurrence of `p`. -/
theorem isSub_replOneF_other (p q : List Char) (c : Char) (hne : p ≠ []) (hc : c ∉ p) :
    ∀ (fuel : Nat) (s : List Char), isSub p s = false →
      isSub p (replOneF q c fuel s) = false := by
  intro fuel
  induction fuel with
  | zero =>
    intro s h
    cases s with
    | nil => simp [replOneF, isSub_nil, isEmpty_false_of_ne hne]
    | cons a s => simpa [replOneF] using h
  | succ fuel ih =>
    intro s h
    cases s with
    | nil => simp [replOneF, isSub_nil, isEmpty_false_of_ne hne]
    | cons a s =>
      have hparts : isPre p (a :: s) = false ∧ isSub p s = false := by
        rw [isSub_cons] at h
        exact Bool.or_eq_false_iff.mp h
      simp only [replOneF]
      split
      case isTrue hcond =>
        rw [isSub_cons]
        have h1 : isPre p (c :: replOneF q c fuel ((a :: s).drop q.length)) = false := by
          cases p with
          | nil => exact absurd rfl hne
          | cons x p' =>
            have hxc : (x == c) = false :=
              beq_eq_false_iff_ne.mpr fun hx => hc (by simp [hx])
            simp [isPre, hxc]
        have h2 : isSub p (replOneF q c fuel ((a :: s).drop q.length)) = false :=
          ih _ (isSub_drop p (a :: s) q.length h)
        simp [h1, h2]
      case isFalse hcond =>
        rw [isSub_cons]
        have h2 : isSub p (replOneF q c fuel s) = false := ih s hparts.2
        have h1 : isPre p (a :: replOneF q c fuel s) = false := by
          cases hb : isPre p (a :: replOneF q c fuel s) with
          | false => rfl
          | true =>
            exfalso
            cases p with
            | nil => exact hne rfl
            | cons x p' =>
              rw [isPre_cons₂, Bool.and_eq_true] at hb
              have hpre : isPre (x :: p') (a :: s) = true := by
                rw [isPre_cons₂, Bool.and_eq_true]
                refine ⟨hb.1, ?_⟩
                cases p' with
                | nil => rfl
                | cons y p'' =>
                  have haux := isPre_drop_replOneF (x :: y :: p'') q c hc fuel s 1
                    (by omega) (by simp) (by simpa using hb.2)
                  simpa using haux
              rw [hpre] at hparts
              exact Bool.true_eq_false.mp hparts.1
        simp [h1, h2]

theorem isSub_dropWhile (p : List Char) (f : Char → Bool) :
    ∀ s : List Char, isSub p s = false → isSub p (s.dropWhile f) = false := by
  intro s
  induction s with
  | nil =>
    intro h
    simpa using h
  | cons a s ih =>
    intro h
    have hparts := Bool.or_eq_false_iff.mp (by rw [isSub_cons] at h; exact h)
    rw [List.dropWhile_cons]
    split
    · exact ih hparts.2
    · exact h

theorem isPre_append_ext (r : List Char) :
    ∀ (q t : List Char), isPre q t = true → isPre q (t ++ r) = true := by
  intro q
  induction q with
  | nil =>
    intro t _
    rfl
  | cons x q' ih =>
    intro t h
    cases t with
    | nil => exact absurd h (by simp [isPre])
    | cons a t' =>
      rw [isPre_cons₂, Bool.and_eq_true] at h
      rw [List.cons_append, isPre_cons₂, Bool.and_eq_true]
      exact ⟨h.1, ih t' h.2⟩

theorem isSub_nil_pat (s : List Char) : isSub [] s = true := by
  cases s <;> rfl

theorem isSub_append_ext (p r : List Char) :
    ∀ t : List Char, isSub p t = true → isSub p (t ++ r) = true := by
  intro t
  induction t with
  | nil =>
    intro h
    have hp : p = [] := by
      cases p with
      | nil => rfl
      | cons _ _ => exact absurd h (by simp [isSub_nil])
    subst hp
    exact isSub_nil_pat r
  | cons a t' ih =>
    intro h
    rw [isSub_cons, Bool.or_eq_true] at h
    rw [List.cons_append, isSub_cons, Bool.or_eq_true]
    rcases h with h | h
    · refine Or.inl ?_
      have := isPre_append_ext r p (a :: t') h
      simpa using this
    · exact Or.inr (ih h)

/-- Lemma: `trimRight` only removes a suffix: the input is the output followed by
some remainder. -/
theorem trimRight_append : ∀ s : List Char, ∃ r, s = trimRight s ++ r := by
  intro s
  induction s with
  | nil => exact ⟨[], rfl⟩
  | cons a s ih =>
    simp only [trimRight]
    cases htr : trimRight s with
    | nil =>
      by_cases hsp : isJsSpace a = true
      · rw [if_pos hsp]
        exact ⟨a :: s, rfl⟩
      · rw [if_neg hsp]
        exact ⟨s, rfl⟩
    | cons b r =>
      obtain ⟨r', hr'⟩ := ih
      rw [htr] at hr'
      refine ⟨r', ?_⟩
      rw [List.cons_append, ← hr']

theorem isSub_trimRight (p : List Char) (s : List Char)
    (h : isSub p s = false) : isSub p (trimRight s) = false := by
  cases hb : isSub p (trimRight s) with
  | false => rfl
  | true =>
    exfalso
    obtain ⟨r, hr⟩ := trimRight_append s
    have hext := isSub_append_ext p r (trimRight s) hb
    rw [← hr] at hext
    rw [hext] at h
    exact Bool.true_eq_false.mp h

/-- After the full decode chain and trim, no code body contains `&quot;` or
`&#39;` (these two passes run last; the replacement characters of the later
passes do not occur in either pattern). -/
theorem cleanedCode_free (raw : List Char) :
    isSub entQuot (cleanedCode raw) = false ∧ isSub ent39 (cleanedCode raw) = false := by
  have hq : ∀ t : List Char, isSub entQuot (replOne entQuot '"' t) = false := fun t =>
    isSub_replOneF_self entQuot '"' (by decide) (by decide) t.length t le_rfl
  have h9 : ∀ t : List Char, isSub ent39 (replOne ent39 '\'' t) = false := fun t =>
    isSub_replOneF_self ent39 '\'' (by decide) (by decide) t.length t le_rfl
  have hq2 : ∀ t : List Char, isSub entQuot t = false →
      isSub entQuot (replOne ent39 '\'' t) = false := fun t h =>
    isSub_replOneF_other entQuot ent39 '\'' (by decide) (by decide) t.length t h
  unfold cleanedCode jsTrim
  constructor
  · exact isSub_trimRight _ _ (isSub_dropWhile _ _ _ (hq2 _ (hq _)))
  · exact isSub_trimRight _ _ (isSub_dropWhile _ _ _ (h9 _))

/-- C1 counterexample: on the markup `<pre>&amp;lt;</pre>` the extractor
emits a code field equal to the literal entity sequence `&lt;` (the `&lt;`
pass runs before the `&amp;` pass, so double-encoded input re-introduces
it), contradicting the claim that every code field is free of all five
entity sequences. -/
theorem c1_counterexample :
    (extractCodeExamplesFromHtml "<pre>&amp;lt;</pre>").map CodeExample.code = ["&lt;"]
  ∧ (extractCodeExamplesFromHtml "<pre>&amp;lt;</pre>").any
      (fun ex => isSub entLt ex.code.data) = true := by decide

/-- C1 (amended): the extractor decodes the five entities in a fixed order
and trims; every emitted code field is free of the two late-pass entity
sequences `&quot;` and `&#39;`, while `&lt;`, `&gt;` and `&amp;` can be
re-introduced by the `&amp;` pass on double-encoded input. -/
theorem c1_amended (html : String) (ex : CodeExample)
    (hmem : ex ∈ extractCodeExamplesFromHtml html) :
    isSub entQuot ex.code.data = false ∧ isSub ent39 ex.code.data = false := by
  unfold extractCodeExamplesFromHtml at hmem
  obtain ⟨t, _, rfl⟩ := List.mem_map.mp hmem
  exact cleanedCode_free t.2.2

/-- Witness for C1 (amended) at a concrete markup input. -/
theorem c1_amended_witness :
    isSub entQuot ("x" : String).data = false ∧ isSub ent39 ("x" : String).data = false :=
  c1_amended "<pre>x</pre>" { language := "javascript", code := "x" } (by decide)

/-- Witness for C2 at the concrete import paths of the claim. -/
theorem c2_witness :
    extractPackageName "./local".data = none
  ∧ extractPackageName ('@' :: "scope".data ++ '/' :: "pkg".data ++ '/' :: "sub".data) =
      some ('@' :: "scope".data ++ '/' :: "pkg".data)
  ∧ extractPackageName ('p' :: "kg".data ++ '/' :: "sub".data) = some ('p' :: "kg".data)
  ∧ extractPackageName "pkg".data = some "pkg".data :=
  ⟨c2_extractPackageName_spec.1 _ (by decide),
   c2_extractPackageName_spec.2.1 "scope".data "pkg".data "sub".data (by decide) (by decide),
   c2_extractPackageName_spec.2.2.1 'p' "kg".data "sub".data (by decide) (by decide) (by decide),
   c2_extractPackageName_spec.2.2.2 "pkg".data (by decide) (by decide) (by decide)⟩

/-! ## Adapter state machine (C4) -/

/-- C4 (amended): a navigate/extract/observe/evaluate call on a
not-initialized adapter fails with the state error; close() never raises and
leaves the adapter state — including the browser handle — unchanged, so it
is idempotent and safe to call in any state; but because the handle is
retained, calls made after close() behave exactly as before close() rather
than failing with a state error. -/
theorem c4_amended :
    (∀ (cur : Option String) (ph : NavPhase) (url : String),
       (navigateTo ⟨none, cur⟩ ph url).1 = .error .notInitialized)
  ∧ (∀ (cur : Option String) (i : String),
       (extractData ⟨none, cur⟩ i).1 = .error .notInitialized)
  ∧ (∀ (cur : Option String) (i : String),
       (observePage ⟨none, cur⟩ i).1 = .error .notInitialized)
  ∧ (∀ (cur : Option String) (fn : EvalFn),
       (evaluateA ⟨none, cur⟩ fn).1 = .error .notInitialized)
  ∧ (∀ st : RunSt, (closeA st).1 = .ok () ∧ (closeA st).2.1 = st)
  ∧ (∀ (st : RunSt) (ph : NavPhase) (url : String),
       navigateTo (closeA st).2.1 ph url = navigateTo st ph url) := by
  refine ⟨?_, ?_, ?_, ?_, ?_, ?_⟩
  · intro cur ph url
    rfl
  · intro cur i
    rfl
  · intro cur i
    rfl
  · intro cur fn
    rfl
  · intro st
    cases st with
    | mk b cur => cases b <;> exact ⟨rfl, rfl⟩
  · intro st ph url
    cases st with
    | mk b cur => cases b <;> rfl

/-- Witness for C4 (amended) at a concrete adapter state. -/
theorem c4_amended_witness :
    (navigateTo ⟨none, none⟩ .primary "https://x").1 = .error .notInitialized ∧
    (closeA ⟨none, none⟩).1 = .ok () :=
  ⟨c4_amended.1 none .primary "https://x", (c4_amended.2.2.2.2.1 ⟨none, none⟩).1⟩

/-- C4 counterexample: after close() the browser handle is retained, so a
subsequent navigateTo on a working backend succeeds instead of failing with
a state error, refuting the claim's after-close clause. -/
theorem c4_counterexample :
    (navigateTo
        (closeA ⟨some { goto? := some (fun _ => .ok ()), close? := some (.ok ()) }, none⟩).2.1
        .primary "https://example.com").1 = .ok () := by decide

/-! ## Initialization fallback policy (C6) -/

/-- C6: `initialize` fails with the adapter-unavailable error exactly when
the library reference is absent; a loaded library lacking both entry points
degrades to the built-in mock backend and succeeds; and with an absent
library, an analysis attempts no navigation at all. -/
theorem c6_init_spec :
    (initAdapter none = .error .libUnavailable)
  ∧ (∀ l : StagehandLib, initAdapter (some l) ≠ .error .libUnavailable)
  ∧ (∀ l : StagehandLib, l.launch? = none → l.browserCtor? = none →
      initAdapter (some l) = .ok tierCBrowser)
  ∧ (∀ url : String, navCount (analyzeToolUrl none url).2 = 0) := by
  refine ⟨rfl, ?_, ?_, ?_⟩
  · intro l h
    cases hl : l.launch? with
    | some r =>
      cases r with
      | ok b => simp [initAdapter, hl] at h
      | error e => simp [initAdapter, hl] at h
    | none =>
      cases hc : l.browserCtor? with
      | some r =>
        cases r with
        | ok b => simp [initAdapter, hl, hc] at h
        | error e => simp [initAdapter, hl, hc] at h
      | none => simp [initAdapter, hl, hc] at h
  · intro l h1 h2
    simp [initAdapter, h1, h2]
  · intro url
    rfl

/-- Witness for C6 at a concrete method-less library object. -/
theorem c6_witness :
    initAdapter (some { launch? := none, browserCtor? := none }) = .ok tierCBrowser
  ∧ initAdapter (some { launch? := none, browserCtor? := none }) ≠ .error .libUnavailable :=
  ⟨c6_init_spec.2.2.1 _ rfl rfl, c6_init_spec.2.1 _⟩

/-! ## Trace lemmas for the orchestrator -/

theorem closeCount_append (t1 t2 : List Ev) :
    closeCount (t1 ++ t2) = closeCount t1 + closeCount t2 := by
  induction t1 with
  | nil => simp [closeCount]
  | cons e t ih =>
    cases e <;> simp [closeCount, ih] <;> omega

theorem navCount_append (t1 t2 : List Ev) :
    navCount (t1 ++ t2) = navCount t1 + navCount t2 := by
  induction t1 with
  | nil => simp [navCount]
  | cons e t ih =>
    cases e <;> simp [navCount, ih] <;> omega

theorem hopOkCount_append (t1 t2 : List Ev) :
    hopOkCount (t1 ++ t2) = hopOkCount t1 + hopOkCount t2 := by
  induction t1 with
  | nil => simp [hopOkCount]
  | cons e t ih =>
    cases e <;> simp [hopOkCount, ih] <;> omega

/-- Every `navigateTo` call records exactly one navigation-attempt event at
its call-site phase and target, successful exactly when the call returned
successfully. -/
theorem navigateTo_trace (st : RunSt) (ph : NavPhase) (url : String) :
    ∃ ok, (navigateTo st ph url).2.2 = [.nav ph url ok] ∧
      ((navigateTo st ph url).1 = .ok () ↔ ok = true) := by
  rcases st with ⟨b, cur⟩
  cases b with
  | none => exact ⟨false, rfl, by simp [navigateTo]⟩
  | some br =>
    cases hg : br.goto? with
    | some f =>
      cases hf : f url with
      | ok u => exact ⟨true, by simp [navigateTo, hg, hf], by simp [navigateTo, hg, hf]⟩
      | error e => exact ⟨false, by simp [navigateTo, hg, hf], by simp [navigateTo, hg, hf]⟩
    | none =>
      cases hn : br.navigate? with
      | some f =>
        cases hf : f url with
        | ok u =>
          exact ⟨true, by simp [navigateTo, hg, hn, hf], by simp [navigateTo, hg, hn, hf]⟩
        | error e =>
          exact ⟨false, by simp [navigateTo, hg, hn, hf], by simp [navigateTo, hg, hn, hf]⟩
      | none =>
        cases ha : br.act? with
        | some f =>
          cases hf : f ("Navigate to " ++ url) with
          | ok u =>
            exact ⟨true, by simp [navigateTo, hg, hn, ha, hf], by simp [navigateTo, hg, hn, ha, hf]⟩
          | error e =>
            exact ⟨false, by simp [navigateTo, hg, hn, ha, hf],
              by simp [navigateTo, hg, hn, ha, hf]⟩
        | none =>
          exact ⟨false, by simp [navigateTo, hg, hn, ha], by simp [navigateTo, hg, hn, ha]⟩

/-- Lemma: `closeA` records exactly its own invocation. -/
theorem closeA_trace (st : RunSt) : (closeA st).2.2 = [.closeCall] := by
  rcases st with ⟨b, cur⟩
  cases b <;> rfl

/-- Trace characterization of the guided-crawl loop: the loop records hop
navigation attempts only (no close events); at most one attempt succeeds;
no attempt happens after a success; the first attempt (if any) targets
exactly the first candidate whose text matches the quick-start filter; and
every attempt targets a text-matching candidate (never an href-only one). -/
theorem followDocLinks_trace (links : List DocLink) :
    ∀ (st : RunSt) (exs : List CodeExample) (deps : List String),
      closeCount (followDocLinks links st exs deps).2.2.2 = 0
    ∧ hopOkCount (followDocLinks links st exs deps).2.2.2 ≤ 1
    ∧ navAfterHopOk (followDocLinks links st exs deps).2.2.2 = 0
    ∧ firstNavTarget (followDocLinks links st exs deps).2.2.2 =
        (links.find? isQuickText).map (fun l => l.href.getD "")
    ∧ (∀ e ∈ (followDocLinks links st exs deps).2.2.2,
        ∃ l ∈ links, isQuickText l = true ∧ ∃ ok, e = Ev.nav .hop (l.href.getD "") ok) := by
  induction links with
  | nil =>
    intro st exs deps
    refine ⟨rfl, by simp [followDocLinks, hopOkCount], rfl, rfl, ?_⟩
    intro e he
    simp [followDocLinks] at he
  | cons l rest ih =>
    intro st exs deps
    by_cases hq : isQuickText l = true
    case neg =>
      have hq' : isQuickText l = false := by
        cases h : isQuickText l with
        | false => rfl
        | true => exact absurd h hq
      have hloop : followDocLinks (l :: rest) st exs deps = followDocLinks rest st exs deps := by
        simp [followDocLinks, hq']
      have hfind : (l :: rest).find? isQuickText = rest.find? isQuickText :=
        List.find?_cons_of_neg _ (by simp [hq'])
      obtain ⟨h1, h2, h3, h4, h5⟩ := ih st exs deps
      rw [hloop, hfind]
      refine ⟨h1, h2, h3, h4, ?_⟩
      intro e he
      obtain ⟨l', hl', hql', hok⟩ := h5 e he
      exact ⟨l', List.mem_cons_of_mem _ hl', hql', hok⟩
    case pos =>
      have hfind : (l :: rest).find? isQuickText = some l :=
        List.find?_cons_of_pos _ (by simp [hq])
      obtain ⟨okn, htr, hok_iff⟩ := navigateTo_trace st .hop (l.href.getD "")
      rcases hnav : navigateTo st .hop (l.href.getD "") with ⟨r, st1, t1⟩
      rw [hnav] at htr hok_iff
      simp only at htr hok_iff
      cases r with
      | ok u =>
        cases u
        have hokn : okn = true := hok_iff.mp rfl
        subst hokn
        rcases hev : evaluateA st1 .outerHTML with ⟨rv, st2⟩
        have hred :
            (followDocLinks (l :: rest) st exs deps).2.2.2 = t1 := by
          cases rv with
          | ok v =>
            cases v <;> simp [followDocLinks, hq, hnav, hev]
          | error e => simp [followDocLinks, hq, hnav, hev]
        rw [hred, htr, hfind]
        refine ⟨rfl, by simp [hopOkCount, isHopOk], by simp [navAfterHopOk, isHopOk, navCount],
          rfl, ?_⟩
        intro e he
        simp only [List.mem_singleton] at he
        exact ⟨l, List.mem_cons_self _ _, hq, true, he⟩
      | error err =>
        have hokn : okn = false := by
          cases okn with
          | false => rfl
          | true => exact absurd (hok_iff.mpr rfl) (by simp)
        subst hokn
        have hred :
            (followDocLinks (l :: rest) st exs deps).2.2.2 =
              t1 ++ (followDocLinks rest st1 exs deps).2.2.2 := by
          rcases hrec : followDocLinks rest st1 exs deps with ⟨a, d, st2, t2⟩
          simp [followDocLinks, hq, hnav, hrec]
        obtain ⟨h1, h2, h3, h4, h5⟩ := ih st1 exs deps
        rw [hred, htr, hfind]
        refine ⟨?_, ?_, ?_, rfl, ?_⟩
        · simpa [closeCount] using h1
        · simpa [hopOkCount, isHopOk] using h2
        · simpa [navAfterHopOk, isHopOk] using h3
        · intro e he
          rcases List.mem_cons.mp (by simpa using he) with he' | he'
          · exact ⟨l, List.mem_cons_self _ _, hq, false, he'⟩
          · obtain ⟨l', hl', hql', hok⟩ := h5 e he'
            exact ⟨l', List.mem_cons_of_mem _ hl', hql', hok⟩

/-- Combining a primary navigation event with a crawl-loop trace preserves
the close/hop facts. -/
theorem trace_combine (url : String) (okn : Bool) (links : List DocLink) (st : RunSt)
    (exs : List CodeExample) (deps : List String) :
    closeCount (Ev.nav .primary url okn :: (followDocLinks links st exs deps).2.2.2) = 0
  ∧ hopOkCount (Ev.nav .primary url okn :: (followDocLinks links st exs deps).2.2.2) ≤ 1
  ∧ navAfterHopOk (Ev.nav .primary url okn :: (followDocLinks links st exs deps).2.2.2) = 0 := by
  obtain ⟨h1, h2, h3, _, _⟩ := followDocLinks_trace links st exs deps
  refine ⟨by simpa [closeCount] using h1, by simpa [hopOkCount, isHopOk] using h2,
    by simpa [navAfterHopOk, isHopOk] using h3⟩

/-- Pre-close trace facts of the orchestrator body: no close events, at most
one successful hop, no navigation attempt after a successful hop. -/
theorem analyzeBody_facts (lib : Option StagehandLib) (url : String) :
    closeCount (analyzeBody lib url).2.2 = 0
  ∧ hopOkCount (analyzeBody lib url).2.2 ≤ 1
  ∧ navAfterHopOk (analyzeBody lib url).2.2 = 0 := by
  cases hinit : initAdapter lib with
  | error e => simp [analyzeBody, hinit, closeCount, hopOkCount, navAfterHopOk]
  | ok b =>
    obtain ⟨okn, htr, _⟩ := navigateTo_trace ⟨some b, none⟩ .primary url
    rcases hnav : navigateTo ⟨some b, none⟩ .primary url with ⟨r, st1, t1⟩
    rw [hnav] at htr
    simp only at htr
    cases r with
    | error e =>
      have hbody : (analyzeBody lib url).2.2 = t1 := by simp [analyzeBody, hinit, hnav]
      rw [hbody, htr]
      exact ⟨rfl, by simp [hopOkCount, isHopOk], by simp [navAfterHopOk, isHopOk]⟩
    | ok u =>
      cases u
      rcases hext : extractData st1 extractInstr with ⟨re, st2⟩
      cases re with
      | error e =>
        have hbody : (analyzeBody lib url).2.2 = t1 := by
          simp [analyzeBody, hinit, hnav, hext]
        rw [hbody, htr]
        exact ⟨rfl, by simp [hopOkCount, isHopOk], by simp [navAfterHopOk, isHopOk]⟩
      | ok ti =>
        rcases hobs : observePage st2 observeInstr with ⟨ro, st3⟩
        cases ro with
        | error e =>
          have hbody : (analyzeBody lib url).2.2 = t1 := by
            simp [analyzeBody, hinit, hnav, hext, hobs]
          rw [hbody, htr]
          exact ⟨rfl, by simp [hopOkCount, isHopOk], by simp [navAfterHopOk, isHopOk]⟩
        | ok ps =>
          rcases hev : evaluateA st3 .outerHTML with ⟨rv, st4⟩
          cases rv with
          | ok v =>
            cases v <;>
              · rw [show (analyzeBody lib url).2.2 =
                    Ev.nav .primary url okn :: (followDocLinks _ _ _ _).2.2.2 by
                  simp [analyzeBody, hinit, hnav, hext, hobs, hev, htr]
                  try rfl]
                exact trace_combine _ _ _ _ _ _
          | error e =>
            rw [show (analyzeBody lib url).2.2 =
                Ev.nav .primary url okn :: (followDocLinks _ _ _ _).2.2.2 by
              simp [analyzeBody, hinit, hnav, hext, hobs, hev, htr]
              try rfl]
            exact trace_combine _ _ _ _ _ _

theorem navAfterHopOk_append_close (t : List Ev) :
    navAfterHopOk (t ++ [Ev.closeCall]) = navAfterHopOk t := by
  induction t with
  | nil => rfl
  | cons e t ih =>
    cases he : isHopOk e with
    | true => simp [navAfterHopOk, he, navCount_append, navCount]
    | false => simp [navAfterHopOk, he, ih]

/-- The orchestrator in terms of its body and the guaranteed cleanup: the
result is the body's result (errors wrapped), and the trace is the body's
trace followed by the close trace. -/
theorem analyzeToolUrl_eq (lib : Option StagehandLib) (url : String) :
    analyzeToolUrl lib url =
      ((match (analyzeBody lib url).1 with
        | .ok p => .ok p
        | .error e => .error (.analysisFailed e)),
       (analyzeBody lib url).2.2 ++ (closeA (analyzeBody lib url).2.1).2.2) := by
  unfold analyzeToolUrl
  rcases analyzeBody lib url with ⟨r, st, t⟩
  rcases hc : closeA st with ⟨rc, st2, tc⟩
  cases r <;> simp [hc]

/-- The analysis trace is the body trace followed by exactly one close
event. -/
theorem analyzeToolUrl_trace (lib : Option StagehandLib) (url : String) :
    (analyzeToolUrl lib url).2 = (analyzeBody lib url).2.2 ++ [Ev.closeCall] := by
  rw [analyzeToolUrl_eq]
  rw [closeA_trace]

/-- C3: the adapter's close() is invoked exactly once per analysis on every
exit path (initialization failure, navigation failure, extraction failure,
observation failure, or success); close() itself never raises, so a backend
close error cannot replace the analysis outcome (concretely: with a backend
whose close throws, a successful analysis still returns its profile and a
failed navigation still reports the navigation failure). -/
theorem c3_close_exactly_once :
    (∀ (lib : Option StagehandLib) (url : String),
       closeCount (analyzeToolUrl lib url).2 = 1)
  ∧ (∀ st : RunSt, (closeA st).1 = .ok ())
  ∧ (analyzeToolUrl (some { launch? := some (.ok
        { goto? := some (fun _ => .ok ()), extract? := some (fun _ => .ok []),
          observe? := some (fun _ => .ok {}), close? := some (.error "close boom") }) })
        "https://x").1 =
      .ok { url := "https://x", toolInfo := [], pageStructure := {},
            codeExamples := [], dependencies := [], timestamp := "" }
  ∧ (analyzeToolUrl (some { launch? := some (.ok
        { goto? := some (fun _ => .error "nav boom"),
          close? := some (.error "close boom") }) })
        "https://x").1 =
      .error (.analysisFailed (.navigationFailed "nav boom")) := by
  refine ⟨?_, ?_, by decide, by decide⟩
  · intro lib url
    rw [analyzeToolUrl_trace, closeCount_append, (analyzeBody_facts lib url).1]
    rfl
  · intro st
    rcases st with ⟨b, cur⟩
    cases b <;> rfl

/-- C7: per analysis, at most one extra (guided-crawl) navigation hop
succeeds beyond the initial URL, and after a successful extra navigation no
further navigation of any kind is attempted within the same analyze call. -/
theorem c7_at_most_one_hop :
    ∀ (lib : Option StagehandLib) (url : String),
      hopOkCount (analyzeToolUrl lib url).2 ≤ 1
    ∧ navAfterHopOk (analyzeToolUrl lib url).2 = 0 := by
  intro lib url
  obtain ⟨_, h2, h3⟩ := analyzeBody_facts lib url
  rw [analyzeToolUrl_trace]
  constructor
  · rw [hopOkCount_append]
    simpa [hopOkCount, isHopOk] using h2
  · rw [navAfterHopOk_append_close]
    exact h3

/-! ## Concrete backends used by witnesses and counterexamples -/

/-- A minimal working backend: navigation, extraction and observation all
succeed; no evaluate verb, nothing observed. -/
def gotoOnlyBrowser : Browser :=
  { goto? := some (fun _ => .ok ())
    extract? := some (fun _ => .ok [])
    observe? := some (fun _ => .ok {}) }

/-- A library launching `gotoOnlyBrowser`. -/
def gotoOnlyLib : Option StagehandLib := some { launch? := some (.ok gotoOnlyBrowser) }

/-- A backend whose single quick-start link fails to navigate: only the
primary url navigates, the observed page has one quick-start link, and the
page markup holds one code block. -/
def hopFailBrowser : Browser :=
  { goto? := some (fun u => if u = "https://t" then .ok () else .error "boom")
    extract? := some (fun _ => .ok [])
    observe? := some (fun _ => .ok { links := some [⟨some "Quick Start", some "/q1"⟩] })
    evaluate? := some (fun _ _ => .ok (.str "<pre>a</pre>")) }

/-- A library launching `hopFailBrowser`. -/
def hopFailLib : Option StagehandLib := some { launch? := some (.ok hopFailBrowser) }

/-! ## URL preservation (C10) -/

/-- A successful orchestrator body always returns a profile whose url field
is the input url. -/
theorem analyzeBody_url (lib : Option StagehandLib) (url : String)
    (p : ToolAnalysisResult) (h : (analyzeBody lib url).1 = .ok p) : p.url = url := by
  cases hinit : initAdapter lib with
  | error e => simp [analyzeBody, hinit] at h
  | ok b =>
    rcases hnav : navigateTo ⟨some b, none⟩ .primary url with ⟨r, st1, t1⟩
    cases r with
    | error e => simp [analyzeBody, hinit, hnav] at h
    | ok u =>
      cases u
      rcases hext : extractData st1 extractInstr with ⟨re, st2⟩
      cases re with
      | error e => simp [analyzeBody, hinit, hnav, hext] at h
      | ok ti =>
        rcases hobs : observePage st2 observeInstr with ⟨ro, st3⟩
        cases ro with
        | error e => simp [analyzeBody, hinit, hnav, hext, hobs] at h
        | ok ps =>
          rcases hev : evaluateA st3 .outerHTML with ⟨rv, st4⟩
          cases rv with
          | ok v =>
            cases v <;>
              · simp [analyzeBody, hinit, hnav, hext, hobs, hev] at h
                first
                | (rw [← h])
                | (rw [h])
          | error e =>
            simp [analyzeBody, hinit, hnav, hext, hobs, hev] at h
            first
            | (rw [← h])
            | (rw [h])

/-- C10: for every successful analyze invocation the url field of the
returned ToolProfile equals the input url exactly, even when the guided
crawl navigated the browser elsewhere before the profile was assembled. -/
theorem c10_url_preserved (lib : Option StagehandLib) (url : String)
    (p : ToolAnalysisResult) (t : List Ev)
    (h : analyzeToolUrl lib url = (.ok p, t)) : p.url = url := by
  have h1 : (analyzeToolUrl lib url).1 = .ok p := by rw [h]
  rw [analyzeToolUrl_eq] at h1
  simp only at h1
  cases hb : (analyzeBody lib url).1 with
  | ok q =>
    rw [hb] at h1
    simp only at h1
    have hq : q = p := by
      simpa using h1
    exact hq ▸ analyzeBody_url lib url q hb
  | error e =>
    rw [hb] at h1
    exact absurd h1 (by simp)

/-- Witness for C10 at a concrete backend and url. -/
theorem c10_witness :
    ({ url := "https://x", toolInfo := [], pageStructure := {}, codeExamples := [],
       dependencies := [], timestamp := "" } : ToolAnalysisResult).url = "https://x" :=
  c10_url_preserved gotoOnlyLib
    "https://x" _ [.nav .primary "https://x" true, .closeCall] (by decide)

/-! ## Hop failures are absorbed (C8) -/

/-- C8: once initialization, the primary navigation, the identity extraction
and the page observation have succeeded, the analysis always returns a
profile carrying those initial-page results, whatever the markup evaluation
and the guided crawl's extra hop do — a hop navigation or second-page
extraction failure is absorbed and never fails the overall analysis.
Concretely, with a backend whose only quick-start link fails to navigate,
analyze still returns the profile with the initial page's code examples. -/
theorem c8_hop_failure_absorbed :
    (∀ (lib : Option StagehandLib) (url : String) (b : Browser) (st1 : RunSt) (t1 : List Ev)
       (ti : ExtractedData) (st2 : RunSt) (ps : ObservationResult) (st3 : RunSt),
       initAdapter lib = .ok b →
       navigateTo ⟨some b, none⟩ .primary url = (.ok (), st1, t1) →
       extractData st1 extractInstr = (.ok ti, st2) →
       observePage st2 observeInstr = (.ok ps, st3) →
       ∃ p : ToolAnalysisResult, (analyzeToolUrl lib url).1 = .ok p ∧
         p.url = url ∧ p.toolInfo = ti ∧ p.pageStructure = ps)
  ∧ (analyzeToolUrl hopFailLib "https://t").1 =
      .ok { url := "https://t", toolInfo := [],
            pageStructure := { links := some [⟨some "Quick Start", some "/q1"⟩] },
            codeExamples := [{ language := "javascript", code := "a" }],
            dependencies := [], timestamp := "" } := by
  constructor
  · intro lib url b st1 t1 ti st2 ps st3 hinit hnav hext hobs
    have key : ∃ E D, (analyzeBody lib url).1 =
        .ok { url := url, toolInfo := ti, pageStructure := ps,
              codeExamples := E, dependencies := D, timestamp := "" } := by
      rcases hev : evaluateA st3 .outerHTML with ⟨rv, st4⟩
      cases rv with
      | ok v =>
        cases v <;>
          exact ⟨_, _, by
            simp [analyzeBody, hinit, hnav, hext, hobs, hev]
            try exact ⟨rfl, rfl⟩
            try rfl⟩
      | error e =>
        exact ⟨_, _, by
          simp [analyzeBody, hinit, hnav, hext, hobs, hev]
          try exact ⟨rfl, rfl⟩
          try rfl⟩
    obtain ⟨E, D, hbody⟩ := key
    refine ⟨{ url := url, toolInfo := ti, pageStructure := ps, codeExamples := E,
              dependencies := D, timestamp := "" }, ?_, rfl, rfl, rfl⟩
    rw [analyzeToolUrl_eq]
    simp only
    rw [hbody]
  · decide

/-- Witness for C8's universal part at a concrete backend whose hop fails. -/
theorem c8_witness :
    ∃ p : ToolAnalysisResult,
      (analyzeToolUrl hopFailLib "https://t").1 = .ok p ∧
      p.url = "https://t" ∧ p.toolInfo = [] ∧
      p.pageStructure = { links := some [⟨some "Quick Start", some "/q1"⟩] } :=
  c8_hop_failure_absorbed.1 hopFailLib "https://t" hopFailBrowser
    ⟨some hopFailBrowser, some "https://t"⟩ [.nav .primary "https://t" true]
    [] ⟨some hopFailBrowser, some "https://t"⟩
    { links := some [⟨some "Quick Start", some "/q1"⟩] }
    ⟨some hopFailBrowser, some "https://t"⟩
    rfl rfl rfl rfl

/-! ## Link selection (C5) -/

/-- The three observed links of the claim's concrete example. -/
def exampleLinks : List DocLink :=
  [⟨some "Home", none⟩, ⟨some "Docs", some "/docs"⟩, ⟨some "Quick Start", some "/quick"⟩]

/-- An initialized adapter state whose navigation always succeeds. -/
def exampleSt : RunSt := ⟨some { goto? := some (fun _ => .ok ()) }, none⟩

/-- C5 (amended): the crawl's first follow attempt targets exactly the first
documentation candidate (in observed order) whose text contains the
quick-start keywords; every follow attempt targets a text-matching candidate
(a candidate matching the filter only via href keywords is never followed);
if no candidate's text matches, no hop is attempted; but when a follow
attempt's navigation fails, the crawl continues with the next text-matching
candidate instead of stopping. On the claim's example links, the followed
link is the one with href `/quick`, not `Docs`. -/
theorem c5_amended :
    (∀ (links : List DocLink) (st : RunSt) (exs : List CodeExample) (deps : List String),
       firstNavTarget (followDocLinks (links.filter isDocCandidate) st exs deps).2.2.2 =
         ((links.filter isDocCandidate).find? isQuickText).map (fun l => l.href.getD ""))
  ∧ (∀ (links : List DocLink) (st : RunSt) (exs : List CodeExample) (deps : List String)
       (e : Ev), e ∈ (followDocLinks (links.filter isDocCandidate) st exs deps).2.2.2 →
       ∃ l ∈ links.filter isDocCandidate, isQuickText l = true ∧
         ∃ ok, e = Ev.nav .hop (l.href.getD "") ok)
  ∧ (∀ (links : List DocLink) (st : RunSt) (exs : List CodeExample) (deps : List String),
       (links.filter isDocCandidate).find? isQuickText = none →
       (followDocLinks (links.filter isDocCandidate) st exs deps).2.2.2 = [])
  ∧ (exampleLinks.filter isDocCandidate =
       [⟨some "Docs", some "/docs"⟩, ⟨some "Quick Start", some "/quick"⟩])
  ∧ ((followDocLinks (exampleLinks.filter isDocCandidate) exampleSt [] []).2.2.2 =
       [Ev.nav .hop "/quick" true]) := by
  refine ⟨?_, ?_, ?_, by decide, by decide⟩
  · intro links st exs deps
    exact (followDocLinks_trace _ st exs deps).2.2.2.1
  · intro links st exs deps e he
    exact (followDocLinks_trace _ st exs deps).2.2.2.2 e he
  · intro links st exs deps hnone
    have h5 := (followDocLinks_trace (links.filter isDocCandidate) st exs deps).2.2.2.2
    cases hT : (followDocLinks (links.filter isDocCandidate) st exs deps).2.2.2 with
    | nil => rfl
    | cons e T' =>
      exfalso
      obtain ⟨l, hl, hq, _⟩ := h5 e (by rw [hT]; exact List.mem_cons_self _ _)
      have hnot := List.find?_eq_none.mp hnone l hl
      simp [hq] at hnot

/-- Witness for C5 (amended), discharging the membership hypothesis at the
claim's concrete example links. -/
theorem c5_amended_witness :
    ∃ l ∈ exampleLinks.filter isDocCandidate, isQuickText l = true ∧
      ∃ ok, Ev.nav NavPhase.hop "/quick" true = Ev.nav .hop (l.href.getD "") ok :=
  c5_amended.2.1 exampleLinks exampleSt [] [] (Ev.nav .hop "/quick" true) (by decide)

/-- Two quick-start candidates, the first of which fails to navigate. -/
def twoQuickLinks : List DocLink :=
  [⟨some "Quick Start A", some "/q1"⟩, ⟨some "Quick Start B", some "/q2"⟩]

/-- A backend observing `twoQuickLinks` whose navigation fails exactly on
the first candidate's href. -/
def twoQuickBrowser : Browser :=
  { goto? := some (fun u => if u = "/q1" then .error "boom" else .ok ())
    extract? := some (fun _ => .ok [])
    observe? := some (fun _ => .ok { links := some twoQuickLinks }) }

/-- A library launching `twoQuickBrowser`. -/
def twoQuickLib : Option StagehandLib := some { launch? := some (.ok twoQuickBrowser) }

/-- C5 counterexample: with two quick-start candidates whose first fails to
navigate, the crawl does not stop at the first text-matching candidate — it
goes on and successfully follows the second one (`/q2`), even though the
first documentation candidate whose text matches is the `/q1` link; two
follow attempts occur in one analysis. -/
theorem c5_counterexample :
    (analyzeToolUrl twoQuickLib "https://t").2 =
      [.nav .primary "https://t" true, .nav .hop "/q1" false, .nav .hop "/q2" true, .closeCall]
  ∧ (twoQuickLinks.filter isDocCandidate).find? isQuickText =
      some ⟨some "Quick Start A", some "/q1"⟩ := by decide

/-! ## End-to-end language tagging and detector scoping (C9) -/

/-- The claim's markup: one `language-python` block (holding an import) and
one untagged block with no import statements. -/
def mdC9 : String :=
  "<pre><code class=\"language-python\">import requests</code></pre><pre><code>console.log(42)</code></pre>"

theorem foldl_detectStep_filter (exs : List CodeExample) :
    ∀ acc : List String, exs.foldl detectStep acc =
      (exs.filter (fun ex => jsFamily.contains ex.language)).foldl detectStep acc := by
  induction exs with
  | nil =>
    intro acc
    rfl
  | cons e t ih =>
    intro acc
    cases hj : jsFamily.contains e.language with
    | true =>
      have hm : e.language ∈ jsFamily := by simpa using hj
      simp [List.filter_cons, hm, ih, detectStep]
    | false =>
      have hm : e.language ∉ jsFamily := by simpa using hj
      simp [List.filter_cons, hm, ih, detectStep]

/-- C9: the markup with one `language-python` block and one untagged block
yields the python-then-javascript example sequence in document order, and
the dependency detector over those examples yields the empty set; in
general the detector scans only examples whose language tag is exactly one
of `javascript`, `typescript`, `jsx`, `tsx`. -/
theorem c9_language_scoping :
    extractCodeExamplesFromHtml mdC9 =
      [{ language := "python", code := "import requests" },
       { language := "javascript", code := "console.log(42)" }]
  ∧ detectDependenciesFromCode (extractCodeExamplesFromHtml mdC9) = []
  ∧ (∀ exs : List CodeExample, detectDependenciesFromCode exs =
       detectDependenciesFromCode (exs.filter (fun ex => jsFamily.contains ex.language))) :=
  ⟨by decide, by decide, fun exs => foldl_detectStep_filter exs []⟩
